import Mathlib

/-!
Shallow embedding of the watch-and-backup engine of SubnauticaSaveSaver
(src/SubnauticaSaveSaver.py), for checking the specification's claims.

Conventions of the embedding:
* Python strings are `List Char` (`Chars`); paths are normalized strings whose
  segments are separated by a single separator character `SEP`.
* Filesystem trees are the mutual inductive `DirTree` / `DirEntries`
  (a directory holds a list of named subdirectories and a list of file names).
* The backup root is an association list from path string to copied `DirTree`;
  a slot's file contents are an association list from relative path to content.
* Python exceptions are `Except PyErr`; an exception a function catches never
  appears in its result, an exception it does not catch is `.error`.
* The outcome of a `shutil.copy2` call on a possibly game-locked file is an
  oracle `Nat → CopyOutcome` giving the outcome of the k-th attempt.
* Wall-clock time is an abstract instant counter `Nat`; each slot copy of a
  sweep advances it by one, and `time.strftime` at an instant is modelled by a
  function parameter, with the concrete "%Y%m%d_%H%M%S" format given by
  `strftimeYmdHMS` over a broken-down `DateTime`.
-/

abbrev Chars := List Char

/-- Path separator character of the model (the source runs on Windows, where
`os.path` uses a backslash; the choice of separator character is immaterial). -/
def SEP : Char := '/'

/-- Underscore, the character `backup_slot` puts between slot name and
timestamp and `restore_save` splits on. -/
def usc : Char := '_'

/-- The slot-directory name marker: the source tests `dir.startswith("slot")`
and `dir_name.startswith("slot")`. -/
def slotPref : Chars := ['s', 'l', 'o', 't']

/-- Model of `os.path.join(a, b)` for a nonempty normalized directory `a` and
relative path `b`. -/
def pyJoin (a b : Chars) : Chars := a ++ SEP :: b

/-- Join path segments with `SEP` (the inverse of splitting a normalized
relative path into segments). -/
def joinSegs : List Chars → Chars
  | [] => []
  | [s] => s
  | s :: rest => s ++ SEP :: joinSegs rest

/-- Model of `os.path.split` on a normalized relative path: the pair of the
directory part (everything before the last separator, `""` if there is none)
and the final component. -/
def pySplit (s : Chars) : Chars × Chars :=
  (((s.reverse.dropWhile (fun c => decide (c ≠ SEP))).drop 1).reverse,
   (s.reverse.takeWhile (fun c => decide (c ≠ SEP))).reverse)

/-- Split a path string into its `SEP`-separated pieces
(model of `str.split(sep)`). -/
def splitSep : Chars → List Chars
  | [] => [[]]
  | c :: rest =>
    let r := splitSep rest
    if c = SEP then [] :: r
    else (c :: r.headI) :: r.tail

/-- Python exceptions relevant to the engine. -/
inductive PyErr where
  | permissionError
  | fileExistsError
  | attributeError
  | jsonDecodeError
  | otherError

/-- Outcome of one `shutil.copy2` attempt on the watched file. -/
inductive CopyOutcome where
  | success
  | permissionError
  | otherError

/-- Observable result of the retry loop in `SaveHandler.backup_save`:
whether a copy succeeded, how many `copy2` calls were made, the sleeps
(in milliseconds) between attempts, whether the exhaustion error was logged,
and the content written to the destination (if any). -/
structure LoopRes where
  copied : Bool
  attempts : Nat
  sleeps : List Nat
  errLogged : Bool
  written : Option Chars

/-- The `max_attempts = 5` constant of `SaveHandler.backup_save`. -/
def max_attempts : Nat := 5

/-- The retry loop of `SaveHandler.backup_save`
(`for attempt in range(max_attempts): try: shutil.copy2 ... except
PermissionError: if attempt < max_attempts - 1: time.sleep(0.5) else: log`).
First argument of the recursion is the number of remaining attempts, second is
the index of the current attempt.  A `PermissionError` is caught and retried;
any other exception from `copy2` is not caught and propagates. -/
def attemptLoop (content : Chars) (oracle : Nat → CopyOutcome) :
    Nat → Nat → Except PyErr LoopRes
  | 0, _ => .ok ⟨false, 0, [], false, none⟩
  | r + 1, k =>
    match oracle k with
    | .success => .ok ⟨true, 1, [], false, some content⟩
    | .permissionError =>
      if 0 < r then
        match attemptLoop content oracle r (k + 1) with
        | .ok res => .ok ⟨res.copied, res.attempts + 1, 500 :: res.sleeps,
            res.errLogged, res.written⟩
        | .error e => .error e
      else .ok ⟨false, 1, [], true, none⟩
    | .otherError => .error .otherError

/-- Result of `backup_save` when the changed path is filtered out: nothing
attempted, nothing written, nothing logged. -/
def noopRes : LoopRes := ⟨false, 0, [], false, none⟩

/-- `SaveHandler.backup_save(src_path)`.  `relPath` is
`os.path.relpath(src_path, self.source_folder)` (the event paths the claims
quantify over are all under the watch root, so the model takes the relative
path directly).  The source computes
`dir_name, file_name = os.path.split(rel_path)` and copies to
`os.path.join(self.target_folder, rel_path)` only `if
dir_name.startswith("slot")`; otherwise the function body does nothing.
`os.makedirs(..., exist_ok=True)` on the destination directory is a side
effect on directories only and is not modelled.  The result pairs the
destination path (`none` when the event was ignored) with the retry loop's
observable outcome. -/
def backup_save (targetFolder content relPath : Chars)
    (oracle : Nat → CopyOutcome) : Except PyErr (Option Chars × LoopRes) :=
  if slotPref.isPrefixOf (pySplit relPath).1 then
    match attemptLoop content oracle max_attempts 0 with
    | .ok res => .ok (some (pyJoin targetFolder relPath), res)
    | .error e => .error e
  else .ok (none, noopRes)

mutual
/-- A directory: named subdirectories and file names. -/
inductive DirTree where
  | node (dirs : DirEntries) (files : List Chars) : DirTree
/-- The subdirectory list of a directory, in `os.walk` listing order. -/
inductive DirEntries where
  | nil : DirEntries
  | cons (name : Chars) (sub : DirTree) (rest : DirEntries) : DirEntries
end

/-- The file list of a directory (used to tell concrete trees apart). -/
def DirTree.filesOf : DirTree → List Chars
  | .node _ fs => fs

mutual
/-- True when no directory anywhere in the tree has the `slot` name marker. -/
def noSlotDirs : DirTree → Bool
  | .node entries _ => noSlotEntries entries
def noSlotEntries : DirEntries → Bool
  | .nil => true
  | .cons n t rest => !slotPref.isPrefixOf n && noSlotDirs t && noSlotEntries rest
end

/-- `os.path.relpath(os.path.join(root, dir), source_folder)` where `relRoot`
is the walk root's path relative to `source_folder` (`""` for the top level). -/
def joinRel (relRoot n : Chars) : Chars :=
  if relRoot = [] then n else relRoot ++ SEP :: n

mutual
/-- The slot directories visited by `save_now`'s
`for root, dirs, files in os.walk(source_folder): for dir in dirs: if
dir.startswith("slot")`, in walk order (top-down: a level's matching entries
first, then each subdirectory's own matches).  Each element is
`(dir, rel_path, subtree)`: the bare directory name appended to
`saved_slots`, the path relative to the walk root, and the subtree that
`shutil.copytree` copies. -/
def walkSlots (relRoot : Chars) : DirTree → List (Chars × Chars × DirTree)
  | .node entries _ => slotEntriesAt relRoot entries ++ walkInto relRoot entries
def slotEntriesAt (relRoot : Chars) : DirEntries → List (Chars × Chars × DirTree)
  | .nil => []
  | .cons n t rest =>
    (if slotPref.isPrefixOf n then [(n, joinRel relRoot n, t)] else []) ++
      slotEntriesAt relRoot rest
def walkInto (relRoot : Chars) : DirEntries → List (Chars × Chars × DirTree)
  | .nil => []
  | .cons n t rest => walkSlots (joinRel relRoot n) t ++ walkInto relRoot rest
end

/-- Association-list lookup (first binding wins), the model of looking an
entry up by name/path in a directory. -/
def alookup {β : Type} : List (Chars × β) → Chars → Option β
  | [], _ => none
  | (k, v) :: rest, q => if k = q then some v else alookup rest q

/-- The backup root: copied slot snapshots addressed by their name
(`{rel_path}_{timestamp}`). -/
abbrev BackupDir := List (Chars × DirTree)

/-- The snapshot name `backup_slot` builds:
`backup_path = os.path.join(target_folder, f"{rel_path}_{timestamp}")`
(the part after the target folder). -/
def backupName (rel ts : Chars) : Chars := rel ++ usc :: ts

/-- `shutil.copytree(src, dst)` with default arguments: fails with
`FileExistsError` when the destination already exists, otherwise copies the
entire subtree to the new destination. -/
def copytreeFresh (root : BackupDir) (name : Chars) (t : DirTree) :
    Except PyErr BackupDir :=
  if (alookup root name).isSome then .error .fileExistsError
  else .ok (root ++ [(name, t)])

/-- `SkSubnauticaSaveSaver.backup_slot(slot_path, source_folder,
target_folder, timestamp)`: copies the whole slot subtree to
`{target}/{rel_path}_{timestamp}`; on any exception it logs the failure and
re-raises (`raise`), so the exception propagates to the caller. -/
def backup_slot (rel : Chars) (t : DirTree) (ts : Chars) (root : BackupDir) :
    Except PyErr BackupDir :=
  copytreeFresh root (backupName rel ts) t

/-- Result of a `save_now` sweep: the backup root afterwards, the
`saved_slots` list, the clock when it stopped, and the uncaught exception that
aborted it (if any). -/
structure SweepResult where
  fs : BackupDir
  saved : List Chars
  clock : Nat
  err : Option PyErr

/-- The sweep loop of `save_now`: back up each walked slot directory with the
one timestamp string computed before the walk, appending to `saved_slots`
after each successful copy; `save_now` has no try/except, so the first
exception `backup_slot` re-raises aborts the loop and propagates. Each copy
advances the clock by one instant. -/
def sweepGo (ts : Chars) :
    List (Chars × Chars × DirTree) → BackupDir → List Chars → Nat → SweepResult
  | [], root, saved, c => ⟨root, saved, c, none⟩
  | (name, rel, t) :: rest, root, saved, c =>
    match backup_slot rel t ts root with
    | .error e => ⟨root, saved, c, some e⟩
    | .ok root2 => sweepGo ts rest root2 (saved ++ [name]) (c + 1)

/-- `SkSubnauticaSaveSaver.save_now(game_name)` (the engine part):
`timestamp = time.strftime("%Y%m%d_%H%M%S")` is evaluated once, at the
current instant `clock`, before the walk; then every slot directory found by
the walk is backed up with that same string.  `fmtAt k` is the strftime
result at instant `k`. -/
def save_now (fmtAt : Nat → Chars) (clock : Nat) (tree : DirTree)
    (root : BackupDir) : SweepResult :=
  sweepGo (fmtAt clock) (walkSlots [] tree) root [] clock

/-- Broken-down wall-clock time as `time.strftime` sees it. -/
structure DateTime where
  year : Nat
  month : Nat
  day : Nat
  hour : Nat
  minute : Nat
  second : Nat

/-- Two-digit zero-padded decimal rendering (`%m`, `%d`, `%H`, `%M`, `%S`;
faithful for the field values < 100 that strftime produces). -/
def pad2 (n : Nat) : Chars :=
  [Nat.digitChar (n / 10 % 10), Nat.digitChar (n % 10)]

/-- Four-digit zero-padded decimal rendering (`%Y`; faithful for
years < 10000). -/
def pad4 (n : Nat) : Chars :=
  [Nat.digitChar (n / 1000 % 10), Nat.digitChar (n / 100 % 10),
   Nat.digitChar (n / 10 % 10), Nat.digitChar (n % 10)]

/-- The timestamp format of `save_now`, `time.strftime("%Y%m%d_%H%M%S")`:
note the underscore between the date part and the time part. -/
def strftimeYmdHMS (t : DateTime) : Chars :=
  pad4 t.year ++ pad2 t.month ++ pad2 t.day ++
    usc :: (pad2 t.hour ++ pad2 t.minute ++ pad2 t.second)

/-- Contents of one backed-up slot: relative file path ↦ file content. -/
abbrev FileMap := List (Chars × Chars)

/-- A directory of slots: top-level entry name ↦ its file contents. -/
abbrev SlotRoot := List (Chars × FileMap)

/-- Overwrite-or-add a binding in an association list. -/
def assocSet {β : Type} (m : List (Chars × β)) (k : Chars) (v : β) :
    List (Chars × β) :=
  (k, v) :: m.filter (fun e => decide (e.1 ≠ k))

/-- `shutil.copytree(src, dst, dirs_exist_ok=True)`: every file of the source
is copied over the destination (overwriting an existing file of the same
relative path); destination files the source does not have are left alone. -/
def copytreeMerge (src dst : FileMap) : FileMap :=
  src.foldl (fun acc e => assocSet acc e.1 e.2) dst

/-- `SkSubnauticaSaveSaver.restore_save(game, save_file)` (the engine part):
`original_name = save_file.split('_')[0]` (the portion of the snapshot name
before the FIRST underscore), then
`shutil.copytree(restore_file, os.path.join(destination_folder,
original_name), dirs_exist_ok=True)`.  The whole body is wrapped in
try/except Exception, which reports the error (log + message box) without
re-raising; so a missing snapshot leaves the live root unchanged and sets the
error flag.  Result: the live root afterwards, paired with whether an error
was reported. -/
def restore_save (savesDir : SlotRoot) (saveFile : Chars) (live : SlotRoot) :
    SlotRoot × Bool :=
  let originalName := saveFile.takeWhile (fun c => decide (c ≠ usc))
  match alookup savesDir saveFile with
  | none => (live, true)
  | some snap =>
    (assocSet live originalName
      (copytreeMerge snap ((alookup live originalName).getD [])), false)

/-- What one drive's `pathlib.Path(drive).glob(f"**/{search_pattern}")`
iteration yields in `detect_save_path`: the matches produced (path and its
`is_dir()` answer) in order, and the exception the generator raised after
them, if any. -/
structure DriveScan where
  found : List (Chars × Bool)
  err : Option PyErr

/-- The inner loop of `detect_save_path`: `for path in drive_path.glob(...):
if path.is_dir(): return str(path)` — the first directory match wins. -/
def firstDirHit : List (Chars × Bool) → Option Chars
  | [] => none
  | (p, isDir) :: rest => if isDir then some p else firstDirHit rest

/-- `SkSubnauticaSaveSaver.detect_save_path(game_name)`: scan the drives in
order; return the first directory match found, or `None` after all drives.
The per-drive `try` has `except PermissionError` and `except Exception`
clauses that only log, so any exception a drive's scan raises is swallowed
and the loop moves to the next drive. -/
def detect_save_path : List DriveScan → Option Chars
  | [] => none
  | d :: rest =>
    match firstDirHit d.found with
    | some p => some p
    | none => detect_save_path rest

/-- The claim's reading of the discovery result as a list of candidate paths:
a path appears in the returned result precisely when the returned
`Option Chars` is that path (the source returns at most one path). -/
def specResultContains (r : Option Chars) (p : Chars) : Prop := r = some p

/-- Stored settings: key ↦ value, where a value is `none` for JSON `null` and
`some s` for a string `s`. -/
abbrev SettingsMap := List (Chars × Option Chars)

def subnautica_save_folder_key : Chars := "subnautica_save_folder".data

def subnautica_zero_save_folder_key : Chars := "subnautica_zero_save_folder".data

def target_folder_key : Chars := "target_folder".data

def target_folder_bz_key : Chars := "target_folder_bz".data

def saves_dir_name : Chars := "Subnautica-SavedGames-Backup".data

def saves_dir_bz_name : Chars := "SubnauticaBelowZero-SavedGames-Backup".data

/-- The `default_settings` dict of `load_settings`: unset save folders are
`None`, the target folders default to the two backup directories next to the
application (paths given relative to the application directory). -/
def default_settings : SettingsMap :=
  [(subnautica_save_folder_key, none),
   (subnautica_zero_save_folder_key, none),
   (target_folder_key, some saves_dir_name),
   (target_folder_bz_key, some saves_dir_bz_name)]

/-- Model of `os.path.normpath`, restricted to separator normalization
(collapsing repeated and trailing separators); `.`/`..` resolution is not
exercised by any claim. -/
def normpath (p : Chars) : Chars :=
  joinSegs ((splitSep p).filter (fun s => decide (s ≠ [])))

/-- The per-key normalization loop of `load_settings`:
`if loaded_settings[key]: loaded_settings[key] =
os.path.normpath(loaded_settings[key])` — `None` and the empty string are
falsy and left untouched. -/
def normalizeVal : Option Chars → Option Chars
  | none => none
  | some p => if p = [] then some [] else some (normpath p)

/-- The states the on-disk settings store can be in. -/
inductive StoreState where
  | missing
  | unreadable
  | invalidJson (raw : Chars)
  | valid (m : SettingsMap)

/-- `os.path.exists(self.settings_file)`. -/
def store_exists : StoreState → Bool
  | .missing => false
  | _ => true

/-- What reading the settings file produces before JSON parsing. -/
inductive FileRead where
  | invalid (raw : Chars)
  | object (m : SettingsMap)

/-- `open(self.settings_file, 'r')` + `f.read()`: raises `PermissionError`
for an unreadable file (and `FileNotFoundError`, modelled as `.otherError`
here, can only occur in the race the claims do not exercise). -/
def open_read : StoreState → Except PyErr FileRead
  | .missing => .error .otherError
  | .unreadable => .error .permissionError
  | .invalidJson raw => .ok (.invalid raw)
  | .valid m => .ok (.object m)

/-- `json.load`: `JSONDecodeError` on unparseable content. -/
def json_load : FileRead → Except PyErr SettingsMap
  | .invalid _ => .error .jsonDecodeError
  | .object m => .ok m

/-- `SkSubnauticaSaveSaver.load_settings`: if the file exists, try to read and
parse it; the `except (json.JSONDecodeError, FileNotFoundError)` clause only
logs, after which the function saves and returns `default_settings`.  A
`PermissionError` from `open` is not in the except tuple and propagates.  When
parsing succeeds, every truthy value is normalized with `os.path.normpath`
and the loaded dict is returned. -/
def load_settings (st : StoreState) : Except PyErr SettingsMap :=
  if store_exists st then
    match open_read st with
    | .error e => .error e
    | .ok content =>
      match json_load content with
      | .error .jsonDecodeError => .ok default_settings
      | .error e => .error e
      | .ok m => .ok (m.map (fun kv => (kv.1, normalizeVal kv.2)))
  else .ok default_settings

/-- A watchdog observer as the session state sees it: the set of directories
it has scheduled watches on. -/
structure ObserverS where
  scheduledDirs : List Chars

/-- The expression `observer.schedule._directory` in
`start_watching_directory`: `Observer.schedule` is a bound method of
watchdog's `BaseObserver`, and a bound method has no `_directory` attribute,
so evaluating the expression raises `AttributeError` (the same holds for the
later `observer.schedule._handlers`). -/
def schedule_attr_directory : Except PyErr Chars := .error .attributeError

/-- Longest common segment-list prefix, for `os.path.commonpath`. -/
def commonPref : List Chars → List Chars → List Chars
  | a :: as, b :: bs => if a = b then a :: commonPref as bs else []
  | _, _ => []

/-- Model of `os.path.commonpath([a, b])`. -/
def commonpath (a b : Chars) : Chars :=
  joinSegs (commonPref (splitSep a) (splitSep b))

/-- `SkSubnauticaSaveSaver.start_watching_directory(directory)`:
`for observer in [self.observer, self.observer_bz]: if observer and
os.path.commonpath([directory, observer.schedule._directory]) ==
observer.schedule._directory: observer.schedule(event_handler, directory,
recursive=False); break`.  The `if observer` short-circuit skips a `None`
observer; for a present observer the attribute access on the bound method
raises before anything else happens. -/
def start_watching_directory (directory : Chars) :
    List (Option ObserverS) → Except PyErr (List (Option ObserverS))
  | [] => .ok []
  | none :: rest =>
    match start_watching_directory directory rest with
    | .ok r => .ok (none :: r)
    | .error e => .error e
  | some o :: rest =>
    match schedule_attr_directory with
    | .error e => .error e
    | .ok obsDir =>
      if commonpath directory obsDir = obsDir then
        .ok (some ⟨o.scheduledDirs ++ [directory]⟩ :: rest)
      else
        match start_watching_directory directory rest with
        | .ok r => .ok (some o :: r)
        | .error e => .error e

/-- A watchdog filesystem event: directory flag and source path (paths in the
handler model are relative to the watched source folder). -/
structure FsEvent where
  isDirectory : Bool
  srcPath : Chars

/-- `SaveHandler.on_created(event)`: a directory event is forwarded to
`manager.start_watching_directory` (after putting a log line on the event
queue); a file event goes to `backup_save`.  An exception either call raises
propagates out of the handler into watchdog's dispatch loop. -/
def on_created (observers : List (Option ObserverS))
    (targetFolder content : Chars) (oracle : Nat → CopyOutcome) :
    FsEvent → Except PyErr (List (Option ObserverS) × Option (Option Chars × LoopRes))
  | ⟨true, p⟩ =>
    match start_watching_directory p observers with
    | .error e => .error e
    | .ok obs2 => .ok (obs2, none)
  | ⟨false, p⟩ =>
    match backup_save targetFolder content p oracle with
    | .error e => .error e
    | .ok r => .ok (observers, some r)

/-- Oracle under which every copy attempt succeeds at once. -/
def okOracle : Nat → CopyOutcome := fun _ => .success

def slot1name : Chars := ['s', 'l', 'o', 't', '1']

def slot2name : Chars := ['s', 'l', 'o', 't', '2']

/-! Helper lemmas about the path-string layer. -/

theorem bool_eq_of_iff {a b : Bool} (h : a = true ↔ b = true) : a = b := by
  cases a <;> cases b <;> simp_all

theorem takeWhile_all {p : Char → Bool} {l : Chars}
    (hl : ∀ a ∈ l, p a = true) : l.takeWhile p = l := by
  induction l with
  | nil => rfl
  | cons a as ih =>
    rw [List.takeWhile_cons, hl a (List.mem_cons_self a as)]
    simp only [if_true]
    rw [ih (fun b hb => hl b (List.mem_cons_of_mem a hb))]

theorem dropWhile_all {p : Char → Bool} {l : Chars}
    (hl : ∀ a ∈ l, p a = true) : l.dropWhile p = [] := by
  induction l with
  | nil => rfl
  | cons a as ih =>
    rw [List.dropWhile_cons, hl a (List.mem_cons_self a as)]
    simp only [if_true]
    exact ih (fun b hb => hl b (List.mem_cons_of_mem a hb))

theorem takeWhile_all_append {p : Char → Bool} {l : Chars} (r : Chars)
    {x : Char} (hl : ∀ a ∈ l, p a = true) (hx : p x = false) :
    (l ++ x :: r).takeWhile p = l := by
  induction l with
  | nil => simp [List.takeWhile_cons, hx]
  | cons a as ih =>
    rw [List.cons_append, List.takeWhile_cons, hl a (List.mem_cons_self a as)]
    simp only [if_true]
    rw [ih (fun b hb => hl b (List.mem_cons_of_mem a hb))]

theorem dropWhile_all_append {p : Char → Bool} {l : Chars} (r : Chars)
    {x : Char} (hl : ∀ a ∈ l, p a = true) (hx : p x = false) :
    (l ++ x :: r).dropWhile p = x :: r := by
  induction l with
  | nil => simp [List.dropWhile_cons, hx]
  | cons a as ih =>
    rw [List.cons_append, List.dropWhile_cons, hl a (List.mem_cons_self a as)]
    simp only [if_true]
    exact ih (fun b hb => hl b (List.mem_cons_of_mem a hb))

theorem ne_sep_all {f : Chars} (hf : SEP ∉ f) :
    ∀ a ∈ f.reverse, (fun c => decide (c ≠ SEP)) a = true := by
  intro a ha
  rw [List.mem_reverse] at ha
  simp only [decide_eq_true_eq]
  intro he
  exact hf (he ▸ ha)

theorem pySplit_single {f : Chars} (hf : SEP ∉ f) : pySplit f = ([], f) := by
  unfold pySplit
  rw [takeWhile_all (ne_sep_all hf), dropWhile_all (ne_sep_all hf)]
  simp

theorem pySplit_sep {d f : Chars} (hf : SEP ∉ f) :
    pySplit (d ++ SEP :: f) = (d, f) := by
  have hx : (fun c => decide (c ≠ SEP)) SEP = false := by simp
  have hrev : (d ++ SEP :: f).reverse = f.reverse ++ SEP :: d.reverse := by
    simp
  unfold pySplit
  rw [hrev, takeWhile_all_append d.reverse (ne_sep_all hf) hx,
    dropWhile_all_append d.reverse (ne_sep_all hf) hx]
  simp

theorem joinSegs_cons_cons (s r : Chars) (rs : List Chars) :
    joinSegs (s :: r :: rs) = s ++ SEP :: joinSegs (r :: rs) := rfl

theorem joinSegs_append_last (ss : List Chars) (f : Chars) (h : ss ≠ []) :
    joinSegs (ss ++ [f]) = joinSegs ss ++ SEP :: f := by
  induction ss with
  | nil => exact absurd rfl h
  | cons s ss2 ih =>
    cases ss2 with
    | nil => simp [joinSegs]
    | cons s2 ss3 =>
      have ihh := ih (List.cons_ne_nil s2 ss3)
      simp only [List.cons_append] at ihh ⊢
      rw [joinSegs_cons_cons, joinSegs_cons_cons, ihh]
      simp

theorem prefix_append_cons (c : Char) (pre x y : Chars) (hc : c ∉ pre) :
    pre <+: x ++ c :: y ↔ pre <+: x := by
  induction pre generalizing x with
  | nil => simp
  | cons p ps ih =>
    cases x with
    | nil =>
      simp only [List.nil_append]
      constructor
      · intro h
        rcases List.cons_prefix_cons.mp h with ⟨h1, _⟩
        exact absurd (by rw [← h1]; exact List.mem_cons_self p ps) hc
      · intro h
        rw [List.prefix_nil] at h
        exact absurd h (List.cons_ne_nil p ps)
    | cons a as =>
      rw [List.cons_append, List.cons_prefix_cons, List.cons_prefix_cons]
      exact and_congr_right
        (fun _ => ih as (fun hm => hc (List.mem_cons_of_mem p hm)))

theorem isPrefixOf_joinSegs (pre : Chars) (hpre : SEP ∉ pre) (s : Chars)
    (rest : List Chars) :
    pre.isPrefixOf (joinSegs (s :: rest)) = pre.isPrefixOf s := by
  cases rest with
  | nil => rfl
  | cons r rs =>
    apply bool_eq_of_iff
    rw [List.isPrefixOf_iff_prefix, List.isPrefixOf_iff_prefix,
      joinSegs_cons_cons]
    exact prefix_append_cons SEP pre s (joinSegs (r :: rs)) hpre

/-- C1 (amended): `backup_save` copies a changed file to
`{target_folder}/{rel_path}` precisely when `rel_path` has at least two
segments and its first segment has the `slot` marker — equivalently, when the
directory part of `rel_path` begins with `"slot"`.  A file directly under the
watch root is never copied, even when its own name begins with `"slot"`
(this is the one point where the claim as frozen fails, see the
counterexample).  On every filtered-out path the call is a no-op: nothing
written, nothing logged, no exception. -/
theorem backup_save_slot_filter (tf content : Chars) (segs : List Chars)
    (hne : segs ≠ [])
    (hwf : ∀ s ∈ segs, s ≠ [] ∧ SEP ∉ s) :
    (backup_save tf content (joinSegs segs) okOracle =
        .ok (some (pyJoin tf (joinSegs segs)),
          ⟨true, 1, [], false, some content⟩)
      ↔ (2 ≤ segs.length ∧ slotPref.isPrefixOf segs.headI = true)) ∧
    (¬ (2 ≤ segs.length ∧ slotPref.isPrefixOf segs.headI = true) →
      backup_save tf content (joinSegs segs) okOracle = .ok (none, noopRes)) := by
  rcases List.eq_nil_or_concat segs with rfl | ⟨L, f, rfl⟩
  · exact absurd rfl hne
  simp only [List.concat_eq_append] at hwf ⊢
  have hf : SEP ∉ f := (hwf f (by simp)).2
  cases L with
  | nil =>
    simp only [List.nil_append] at hwf ⊢
    have hbs : backup_save tf content (joinSegs [f]) okOracle =
        .ok (none, noopRes) := by
      have hj : joinSegs [f] = f := rfl
      unfold backup_save
      rw [hj, pySplit_single hf]
      rfl
    refine ⟨⟨fun h => ?_, fun h => ?_⟩, fun _ => hbs⟩
    · rw [hbs] at h
      simp [noopRes] at h
    · exact absurd h.1 (by simp)
  | cons s0 ss2 =>
    simp only [List.cons_append] at hwf ⊢
    have hjoin : joinSegs (s0 :: (ss2 ++ [f])) =
        joinSegs (s0 :: ss2) ++ SEP :: f :=
      joinSegs_append_last (s0 :: ss2) f (List.cons_ne_nil s0 ss2)
    have hcond : slotPref.isPrefixOf (pySplit (joinSegs (s0 :: (ss2 ++ [f])))).1 =
        slotPref.isPrefixOf s0 := by
      rw [hjoin, pySplit_sep hf]
      exact isPrefixOf_joinSegs slotPref (by decide) s0 ss2
    have hhead : (s0 :: (ss2 ++ [f]) : List Chars).headI = s0 := rfl
    have hlen : 2 ≤ (s0 :: (ss2 ++ [f]) : List Chars).length := by
      simp
    cases hb : slotPref.isPrefixOf s0 with
    | true =>
      have hbs : backup_save tf content (joinSegs (s0 :: (ss2 ++ [f]))) okOracle =
          .ok (some (pyJoin tf (joinSegs (s0 :: (ss2 ++ [f])))),
            ⟨true, 1, [], false, some content⟩) := by
        unfold backup_save
        rw [hcond, hb]
        rfl
      exact ⟨⟨fun _ => ⟨hlen, by rw [hhead]; exact hb⟩, fun _ => hbs⟩,
        fun h => absurd ⟨hlen, by rw [hhead]; exact hb⟩ h⟩
    | false =>
      have hbs : backup_save tf content (joinSegs (s0 :: (ss2 ++ [f]))) okOracle =
          .ok (none, noopRes) := by
        unfold backup_save
        rw [hcond, hb]
        rfl
      refine ⟨⟨fun h => ?_, fun h => ?_⟩, fun _ => hbs⟩
      · rw [hbs] at h
        simp [noopRes] at h
      · rw [hhead, hb] at h
        simp at h

/-- C1 witness: a concrete slot file `slot1/save.dat` is copied and a
concrete top-level file is not, instantiating `backup_save_slot_filter`. -/
theorem backup_save_slot_filter_witness :
    (backup_save ("backup".data) ("data".data)
        (joinSegs [slot1name, "save.dat".data]) okOracle =
        .ok (some (pyJoin ("backup".data) (joinSegs [slot1name, "save.dat".data])),
          ⟨true, 1, [], false, some ("data".data)⟩)
      ↔ (2 ≤ ([slot1name, "save.dat".data] : List Chars).length ∧
          slotPref.isPrefixOf ([slot1name, "save.dat".data] : List Chars).headI = true)) ∧
    (¬ (2 ≤ ([slot1name, "save.dat".data] : List Chars).length ∧
        slotPref.isPrefixOf ([slot1name, "save.dat".data] : List Chars).headI = true) →
      backup_save ("backup".data) ("data".data)
        (joinSegs [slot1name, "save.dat".data]) okOracle = .ok (none, noopRes)) :=
  backup_save_slot_filter ("backup".data) ("data".data)
    [slot1name, "save.dat".data] (by decide) (by decide)

/-- C1 counterexample: for the changed path `{watchRoot}/slotsave.txt` the
first path segment of the relative path is `slotsave.txt`, which starts with
the slot marker, yet `backup_save` performs no copy — the source tests the
directory part of the relative path (empty here), not its first segment, so
the claimed "iff" fails in this direction. -/
theorem backup_save_slot_filter_claim_false :
    slotPref.isPrefixOf (([("slotsave.txt".data : Chars)] : List Chars).headI) = true ∧
    backup_save ("backup".data) ("data".data)
      (joinSegs [("slotsave.txt".data : Chars)]) okOracle = .ok (none, noopRes) :=
  ⟨rfl, rfl⟩

/-! Lemmas about the retry loop. -/

theorem attemptLoop_succeeds (content : Chars) (oracle : Nat → CopyOutcome) :
    ∀ (k r base : Nat), k < r →
      (∀ j, j < k → oracle (base + j) = .permissionError) →
      oracle (base + k) = .success →
      attemptLoop content oracle r base =
        .ok ⟨true, k + 1, List.replicate k 500, false, some content⟩ := by
  intro k
  induction k with
  | zero =>
    intro r base hk _ hs
    match r, hk with
    | r + 1, _ =>
      have hs2 : oracle base = .success := by rwa [Nat.add_zero] at hs
      simp only [attemptLoop, hs2]
      rfl
  | succ k ih =>
    intro r base hk hfail hs
    match r, hk with
    | r + 1, hk =>
      have hr : 0 < r := by omega
      have h0 : oracle base = .permissionError := by
        have := hfail 0 (by omega)
        rwa [Nat.add_zero] at this
      have ihh := ih r (base + 1) (by omega)
        (fun j hj => by
          have := hfail (j + 1) (by omega)
          rwa [show base + (j + 1) = base + 1 + j by omega] at this)
        (by
          rw [show base + 1 + k = base + (k + 1) by omega]
          exact hs)
      simp only [attemptLoop, h0]
      rw [if_pos hr, ihh]
      rfl

theorem attemptLoop_exhausts (content : Chars) (oracle : Nat → CopyOutcome) :
    ∀ (r base : Nat), 0 < r →
      (∀ j, j < r → oracle (base + j) = .permissionError) →
      attemptLoop content oracle r base =
        .ok ⟨false, r, List.replicate (r - 1) 500, true, none⟩ := by
  intro r
  induction r with
  | zero =>
    intro base h _
    omega
  | succ r ih =>
    intro base _ hfail
    have h0 : oracle base = .permissionError := by
      have := hfail 0 (by omega)
      rwa [Nat.add_zero] at this
    by_cases hr : 0 < r
    · have ihh := ih (base + 1) hr (fun j hj => by
        have := hfail (j + 1) (by omega)
        rwa [show base + (j + 1) = base + 1 + j by omega] at this)
      simp only [attemptLoop, h0]
      rw [if_pos hr, ihh]
      have hrep : List.replicate r 500 = 500 :: List.replicate (r - 1) 500 := by
        conv_lhs => rw [show r = (r - 1) + 1 by omega]
        rfl
      simp [hrep]
    · have hr0 : r = 0 := by omega
      subst hr0
      simp only [attemptLoop, h0]
      rw [if_neg hr]
      rfl

/-- C4: on lock-type (permission) failures `backup_save` retries with a fixed
500 ms sleep between attempts, up to `max_attempts = 5` calls in total; if the
k-th attempt (k < 5) succeeds after k permission failures, the whole operation
reports success, having slept k times, and the destination was written with
the source's content. -/
theorem backup_save_retry_then_succeed (tf content rel : Chars)
    (oracle : Nat → CopyOutcome) (k : Nat)
    (hfilter : slotPref.isPrefixOf (pySplit rel).1 = true)
    (hk : k < max_attempts)
    (hfail : ∀ j, j < k → oracle j = .permissionError)
    (hsucc : oracle k = .success) :
    backup_save tf content rel oracle =
      .ok (some (pyJoin tf rel),
        ⟨true, k + 1, List.replicate k 500, false, some content⟩) := by
  unfold backup_save
  rw [hfilter, if_pos rfl,
    attemptLoop_succeeds content oracle k max_attempts 0 hk
      (fun j hj => by rw [Nat.zero_add]; exact hfail j hj)
      (by rw [Nat.zero_add]; exact hsucc)]

/-- C4 witness: the claim's own scenario — the first two attempts hit a lock,
the third succeeds — instantiating `backup_save_retry_then_succeed`. -/
theorem backup_save_retry_then_succeed_witness :
    backup_save ("backup".data) ("data".data)
      (joinSegs [slot1name, "save.dat".data])
      (fun j => if j < 2 then .permissionError else .success) =
      .ok (some (pyJoin ("backup".data) (joinSegs [slot1name, "save.dat".data])),
        ⟨true, 3, [500, 500], false, some ("data".data)⟩) := by
  have h := backup_save_retry_then_succeed ("backup".data) ("data".data)
    (joinSegs [slot1name, "save.dat".data])
    (fun j => if j < 2 then .permissionError else .success) 2
    (by decide) (by decide)
    (fun j hj => by
      match j, hj with
      | 0, _ => rfl
      | 1, _ => rfl)
    rfl
  simpa using h

/-! Lemmas about the sweep walk. -/

mutual
theorem walkSlots_noSlot (r : Chars) : (t : DirTree) → noSlotDirs t = true →
    walkSlots r t = []
  | .node entries files, h => by
    have h2 : noSlotEntries entries = true := h
    show slotEntriesAt r entries ++ walkInto r entries = []
    rw [slotEntriesAt_noSlot r entries h2, walkInto_noSlot r entries h2]
    rfl
theorem slotEntriesAt_noSlot (r : Chars) : (es : DirEntries) →
    noSlotEntries es = true → slotEntriesAt r es = []
  | .nil, _ => rfl
  | .cons n t rest, h => by
    have h3 : (!slotPref.isPrefixOf n && noSlotDirs t && noSlotEntries rest) = true := h
    simp only [Bool.and_eq_true, Bool.not_eq_true'] at h3
    show (if slotPref.isPrefixOf n then [(n, joinRel r n, t)] else []) ++
        slotEntriesAt r rest = []
    rw [if_neg (by simp [h3.1.1] : ¬ slotPref.isPrefixOf n = true),
      slotEntriesAt_noSlot r rest h3.2]
    rfl
theorem walkInto_noSlot (r : Chars) : (es : DirEntries) →
    noSlotEntries es = true → walkInto r es = []
  | .nil, _ => rfl
  | .cons n t rest, h => by
    have h3 : (!slotPref.isPrefixOf n && noSlotDirs t && noSlotEntries rest) = true := h
    simp only [Bool.and_eq_true, Bool.not_eq_true'] at h3
    show walkSlots (joinRel r n) t ++ walkInto r rest = []
    rw [walkSlots_noSlot (joinRel r n) t h3.1.2, walkInto_noSlot r rest h3.2]
    rfl
end

theorem walkSlots_two_slots (t1 t2 : DirTree) (files : List Chars)
    (h1 : noSlotDirs t1 = true) (h2 : noSlotDirs t2 = true) :
    walkSlots [] (.node (.cons slot1name t1 (.cons slot2name t2 .nil)) files) =
      [(slot1name, slot1name, t1), (slot2name, slot2name, t2)] := by
  show slotEntriesAt [] (.cons slot1name t1 (.cons slot2name t2 .nil)) ++
      walkInto [] (.cons slot1name t1 (.cons slot2name t2 .nil)) = _
  rw [show walkInto [] (DirEntries.cons slot1name t1 (.cons slot2name t2 .nil)) =
      walkSlots slot1name t1 ++ (walkSlots slot2name t2 ++ []) from rfl,
    walkSlots_noSlot slot1name t1 h1, walkSlots_noSlot slot2name t2 h2]
  rfl

theorem backupName_ne_of_ne (s1 s2 ts : Chars) (h : s1 ≠ s2) :
    backupName s1 ts ≠ backupName s2 ts :=
  fun hh => h (List.append_cancel_right hh)

/-- C3: one "Save Now" sweep over a watch root holding exactly the slot
directories slot1 and slot2 (and no nested slot-named directories) computes
the timestamp once, at the instant the sweep starts, and produces exactly the
two entries slot1_T and slot2_T with that same T — even though the second
copy happens one instant later — each holding the entire subtree of its slot. -/
theorem save_now_shared_timestamp (fmtAt : Nat → Chars) (c : Nat)
    (t1 t2 : DirTree) (files : List Chars)
    (h1 : noSlotDirs t1 = true) (h2 : noSlotDirs t2 = true) :
    save_now fmtAt c
        (.node (.cons slot1name t1 (.cons slot2name t2 .nil)) files) [] =
      ⟨[(backupName slot1name (fmtAt c), t1),
        (backupName slot2name (fmtAt c), t2)],
       [slot1name, slot2name], c + 2, none⟩ := by
  have hne : backupName slot1name (fmtAt c) ≠ backupName slot2name (fmtAt c) :=
    backupName_ne_of_ne slot1name slot2name (fmtAt c) (by decide)
  have hstep2 : alookup [(backupName slot1name (fmtAt c), t1)]
      (backupName slot2name (fmtAt c)) = none := by
    show (if backupName slot1name (fmtAt c) = backupName slot2name (fmtAt c)
      then some t1 else alookup [] (backupName slot2name (fmtAt c))) = none
    rw [if_neg hne]
    rfl
  show sweepGo (fmtAt c)
      (walkSlots [] (.node (.cons slot1name t1 (.cons slot2name t2 .nil)) files))
      [] [] c = _
  rw [walkSlots_two_slots t1 t2 files h1 h2]
  show sweepGo (fmtAt c) [(slot2name, slot2name, t2)]
      [(backupName slot1name (fmtAt c), t1)] [slot1name] (c + 1) = _
  simp only [sweepGo, backup_slot, copytreeFresh, hstep2]
  rfl

/-- C3 witness: instantiating `save_now_shared_timestamp` with two concrete
slot subtrees and a clock-dependent timestamp function. -/
theorem save_now_shared_timestamp_witness :
    save_now (fun k => (Nat.digitChar (k % 10)) :: ("ts".data)) 7
        (.node (.cons slot1name (.node .nil [("a".data : Chars)])
          (.cons slot2name (.node .nil [("b".data : Chars)]) .nil)) []) [] =
      ⟨[(backupName slot1name ((Nat.digitChar (7 % 10)) :: ("ts".data)),
          .node .nil [("a".data : Chars)]),
        (backupName slot2name ((Nat.digitChar (7 % 10)) :: ("ts".data)),
          .node .nil [("b".data : Chars)])],
       [slot1name, slot2name], 7 + 2, none⟩ :=
  save_now_shared_timestamp (fun k => (Nat.digitChar (k % 10)) :: ("ts".data)) 7
    (.node .nil [("a".data : Chars)]) (.node .nil [("b".data : Chars)]) []
    (by decide) (by decide)

/-- C2 (amended): an event-triggered copy whose five attempts all hit
permission errors reports a logged error and returns normally — nothing is
written, no exception escapes, the watch session goes on.  But in a full
sweep the claim fails: `backup_slot` re-raises after logging and `save_now`
has no handler, so one slot's copy failure (here: the destination name
already exists) aborts the sweep and the remaining slots are NOT backed up. -/
theorem backup_failure_scope :
    (∀ (tf content rel : Chars) (oracle : Nat → CopyOutcome),
        (∀ j, j < max_attempts → oracle j = .permissionError) →
        ∃ dst res, backup_save tf content rel oracle = .ok (dst, res) ∧
          res.copied = false ∧ res.written = none ∧
          (slotPref.isPrefixOf (pySplit rel).1 = true →
            res.errLogged = true ∧ res.attempts = max_attempts)) ∧
    (∀ (fmtAt : Nat → Chars) (c : Nat) (t0 t1 t2 : DirTree) (files : List Chars),
        noSlotDirs t1 = true → noSlotDirs t2 = true →
        save_now fmtAt c
            (.node (.cons slot1name t1 (.cons slot2name t2 .nil)) files)
            [(backupName slot1name (fmtAt c), t0)] =
          ⟨[(backupName slot1name (fmtAt c), t0)], [], c,
            some .fileExistsError⟩ ∧
        alookup [(backupName slot1name (fmtAt c), t0)]
          (backupName slot2name (fmtAt c)) = none) := by
  constructor
  · intro tf content rel oracle hfail
    by_cases hfil : slotPref.isPrefixOf (pySplit rel).1 = true
    · refine ⟨some (pyJoin tf rel),
        ⟨false, max_attempts, List.replicate (max_attempts - 1) 500, true, none⟩,
        ?_, rfl, rfl, fun _ => ⟨rfl, rfl⟩⟩
      unfold backup_save
      rw [hfil, if_pos rfl,
        attemptLoop_exhausts content oracle max_attempts 0 (by decide)
          (fun j hj => by rw [Nat.zero_add]; exact hfail j hj)]
    · refine ⟨none, noopRes, ?_, rfl, rfl, fun hc => absurd hc hfil⟩
      unfold backup_save
      rw [if_neg hfil]
  · intro fmtAt c t0 t1 t2 files h1 h2
    have hne : backupName slot1name (fmtAt c) ≠ backupName slot2name (fmtAt c) :=
      backupName_ne_of_ne slot1name slot2name (fmtAt c) (by decide)
    have halook : alookup [(backupName slot1name (fmtAt c), t0)]
        (backupName slot1name (fmtAt c)) = some t0 := by
      show (if backupName slot1name (fmtAt c) = backupName slot1name (fmtAt c)
        then some t0 else alookup [] (backupName slot1name (fmtAt c))) = some t0
      rw [if_pos rfl]
    constructor
    · show sweepGo (fmtAt c)
          (walkSlots [] (.node (.cons slot1name t1 (.cons slot2name t2 .nil)) files))
          [(backupName slot1name (fmtAt c), t0)] [] c = _
      rw [walkSlots_two_slots t1 t2 files h1 h2]
      simp only [sweepGo, backup_slot, copytreeFresh, halook]
      rfl
    · show (if backupName slot1name (fmtAt c) = backupName slot2name (fmtAt c)
        then some t0 else alookup [] (backupName slot2name (fmtAt c))) = none
      rw [if_neg hne]
      rfl

/-- C2 witness: instantiating both halves of `backup_failure_scope` — the
all-permission-errors oracle for the event path, and a concrete two-slot
sweep whose first slot collides with an existing snapshot. -/
theorem backup_failure_scope_witness :
    (∃ dst res, backup_save ("backup".data) ("data".data)
        (joinSegs [slot1name, "save.dat".data]) (fun _ => .permissionError) =
          .ok (dst, res) ∧
        res.copied = false ∧ res.written = none ∧
        (slotPref.isPrefixOf
            (pySplit (joinSegs [slot1name, "save.dat".data])).1 = true →
          res.errLogged = true ∧ res.attempts = max_attempts)) ∧
    (save_now (fun _ => ("20240101_000000".data : Chars)) 0
        (.node (.cons slot1name (.node .nil [("a".data : Chars)])
          (.cons slot2name (.node .nil [("b".data : Chars)]) .nil)) [])
        [(backupName slot1name ("20240101_000000".data),
          .node .nil [("z".data : Chars)])] =
      ⟨[(backupName slot1name ("20240101_000000".data),
          .node .nil [("z".data : Chars)])], [], 0, some .fileExistsError⟩ ∧
      alookup [(backupName slot1name ("20240101_000000".data),
          DirTree.node .nil [("z".data : Chars)])]
        (backupName slot2name ("20240101_000000".data)) = none) :=
  ⟨backup_failure_scope.1 ("backup".data) ("data".data)
      (joinSegs [slot1name, "save.dat".data]) (fun _ => .permissionError)
      (fun _ _ => rfl),
   backup_failure_scope.2 (fun _ => ("20240101_000000".data : Chars)) 0
      (.node .nil [("z".data : Chars)]) (.node .nil [("a".data : Chars)])
      (.node .nil [("b".data : Chars)]) [] (by decide) (by decide)⟩

/-- C2 counterexample: the claim says a failure to copy one slot during a
sweep leaves the remaining slots backed up; concretely, when slot1's copy
fails (destination name taken), `save_now` stops with the re-raised
`FileExistsError`, `saved_slots` is empty and no slot2 snapshot exists. -/
theorem sweep_abort_claim_false :
    save_now (fun _ => ("20240101_000000".data : Chars)) 0
        (.node (.cons slot1name (.node .nil [("a".data : Chars)])
          (.cons slot2name (.node .nil [("b".data : Chars)]) .nil)) [])
        [(backupName slot1name ("20240101_000000".data),
          .node .nil [("z".data : Chars)])] =
      ⟨[(backupName slot1name ("20240101_000000".data),
          .node .nil [("z".data : Chars)])], [], 0, some .fileExistsError⟩ ∧
    alookup [(backupName slot1name ("20240101_000000".data),
        DirTree.node .nil [("z".data : Chars)])]
      (backupName slot2name ("20240101_000000".data)) = none := by
  constructor
  · rfl
  · rfl

/-- C6 (amended): when a second backup of the same slot lands on the same
`{slotName}_{timestamp}` path, `shutil.copytree` (called without
`dirs_exist_ok`) raises `FileExistsError`; `backup_slot` logs and re-raises
instead of overwriting, and the destination keeps the earlier copy. -/
theorem backup_slot_same_timestamp_fails (rel ts : Chars) (t1 t2 : DirTree) :
    backup_slot rel t1 ts [] = .ok [(backupName rel ts, t1)] ∧
    backup_slot rel t2 ts [(backupName rel ts, t1)] = .error .fileExistsError ∧
    alookup [(backupName rel ts, t1)] (backupName rel ts) = some t1 := by
  have halook : alookup [(backupName rel ts, t1)] (backupName rel ts) = some t1 := by
    show (if backupName rel ts = backupName rel ts
      then some t1 else alookup [] (backupName rel ts)) = some t1
    rw [if_pos rfl]
  refine ⟨rfl, ?_, halook⟩
  show copytreeFresh [(backupName rel ts, t1)] (backupName rel ts) t2 = _
  unfold copytreeFresh
  rw [halook]
  rfl

/-- C6 counterexample: the second backup into the occupied path does NOT
"report success with the destination holding the later copy" — it raises
`FileExistsError` while the stored tree is still the (different) earlier one. -/
theorem backup_slot_overwrite_claim_false :
    backup_slot slot1name (.node .nil [("b".data : Chars)])
        ("20240101_000000".data)
        [(backupName slot1name ("20240101_000000".data),
          .node .nil [("a".data : Chars)])] =
      .error .fileExistsError ∧
    (DirTree.node .nil [("a".data : Chars)]) ≠
      (DirTree.node .nil [("b".data : Chars)]) := by
  constructor
  · rfl
  · intro h
    have h2 := congrArg DirTree.filesOf h
    exact absurd h2 (by decide)

/-! Lemmas about association lists and the merging copytree. -/

theorem alookup_filter_ne {β : Type} (m : List (Chars × β)) (k q : Chars)
    (hq : q ≠ k) :
    alookup (m.filter (fun e => decide (e.1 ≠ k))) q = alookup m q := by
  induction m with
  | nil => rfl
  | cons e rest ih =>
    rcases e with ⟨k1, v1⟩
    rw [List.filter_cons]
    by_cases h1 : k1 = k
    · subst h1
      have hc : ¬ ((fun e => decide (e.1 ≠ k1)) (k1, v1) = true) := by simp
      rw [if_neg hc, ih]
      show alookup rest q = if k1 = q then some v1 else alookup rest q
      rw [if_neg (fun hh => hq (hh.symm.trans rfl))]
    · have hc : ((fun e => decide (e.1 ≠ k)) (k1, v1) = true) := by simp [h1]
      rw [if_pos hc]
      show (if k1 = q then some v1
          else alookup (rest.filter (fun e => decide (e.1 ≠ k))) q) =
        (if k1 = q then some v1 else alookup rest q)
      by_cases h2 : k1 = q
      · rw [if_pos h2, if_pos h2]
      · rw [if_neg h2, if_neg h2, ih]

theorem alookup_assocSet_self {β : Type} (m : List (Chars × β)) (k : Chars)
    (v : β) : alookup (assocSet m k v) k = some v := by
  show (if k = k then some v
    else alookup (m.filter (fun e => decide (e.1 ≠ k))) k) = some v
  rw [if_pos rfl]

theorem alookup_assocSet_ne {β : Type} (m : List (Chars × β)) (k q : Chars)
    (v : β) (hq : q ≠ k) :
    alookup (assocSet m k v) q = alookup m q := by
  show (if k = q then some v
    else alookup (m.filter (fun e => decide (e.1 ≠ k))) q) = alookup m q
  rw [if_neg (fun hh => hq hh.symm), alookup_filter_ne m k q hq]

theorem alookup_eq_none_of_not_mem {β : Type} (m : List (Chars × β))
    (q : Chars) (h : q ∉ m.map Prod.fst) : alookup m q = none := by
  induction m with
  | nil => rfl
  | cons e rest ih =>
    rcases e with ⟨k1, v1⟩
    simp only [List.map_cons, List.mem_cons] at h
    push_neg at h
    show (if k1 = q then some v1 else alookup rest q) = none
    rw [if_neg (fun hh => h.1 hh.symm), ih h.2]

theorem copytreeMerge_not_mem (snap : FileMap) (q : Chars) :
    q ∉ snap.map Prod.fst →
    ∀ dst : FileMap, alookup (copytreeMerge snap dst) q = alookup dst q := by
  induction snap with
  | nil => intro _ dst; rfl
  | cons e rest ih =>
    intro h dst
    rcases e with ⟨k1, v1⟩
    simp only [List.map_cons, List.mem_cons] at h
    push_neg at h
    show alookup (copytreeMerge rest (assocSet dst k1 v1)) q = alookup dst q
    rw [ih h.2 (assocSet dst k1 v1), alookup_assocSet_ne dst k1 q v1 h.1]

theorem copytreeMerge_mem (snap : FileMap) (q cv : Chars) :
    (snap.map Prod.fst).Nodup → alookup snap q = some cv →
    ∀ dst : FileMap, alookup (copytreeMerge snap dst) q = some cv := by
  induction snap with
  | nil =>
    intro _ h _
    cases h
  | cons e rest ih =>
    intro hnd h dst
    rcases e with ⟨k1, v1⟩
    simp only [List.map_cons, List.nodup_cons] at hnd
    show alookup (copytreeMerge rest (assocSet dst k1 v1)) q = some cv
    by_cases h1 : k1 = q
    · subst h1
      have hv : some v1 = some cv := by
        rw [← h]
        show some v1 = if k1 = k1 then some v1 else alookup rest k1
        rw [if_pos rfl]
      rw [copytreeMerge_not_mem rest k1 hnd.1 (assocSet dst k1 v1),
        alookup_assocSet_self dst k1 v1]
      exact hv
    · have h' : alookup rest q = some cv := by
        have hh : alookup ((k1, v1) :: rest) q = alookup rest q := by
          show (if k1 = q then some v1 else alookup rest q) = alookup rest q
          rw [if_neg h1]
        rw [← hh]
        exact h
      exact ih hnd.2 h' (assocSet dst k1 v1)

/-- C5 (amended): `restore_save` parses the snapshot name by taking the
portion before the FIRST underscore (not the last) as the original slot name,
and the copy is a merge over `{watchRoot}/{originalSlotName}`: every file of
the snapshot ends up with the snapshot's content, files only in the live slot
keep their live content (never deleted), and no other entry of the live root
is touched. -/
theorem restore_save_merge (savesDir : SlotRoot) (saveFile : Chars)
    (live : SlotRoot) (snap : FileMap)
    (hs : alookup savesDir saveFile = some snap)
    (hnd : (snap.map Prod.fst).Nodup) :
    restore_save savesDir saveFile live =
      (assocSet live (saveFile.takeWhile (fun c => decide (c ≠ usc)))
        (copytreeMerge snap
          ((alookup live (saveFile.takeWhile (fun c => decide (c ≠ usc)))).getD [])),
       false) ∧
    (∀ p cv, alookup snap p = some cv →
      alookup (copytreeMerge snap
        ((alookup live (saveFile.takeWhile (fun c => decide (c ≠ usc)))).getD [])) p =
        some cv) ∧
    (∀ p, p ∉ snap.map Prod.fst →
      alookup (copytreeMerge snap
        ((alookup live (saveFile.takeWhile (fun c => decide (c ≠ usc)))).getD [])) p =
        alookup ((alookup live (saveFile.takeWhile (fun c => decide (c ≠ usc)))).getD []) p) ∧
    (∀ k, k ≠ saveFile.takeWhile (fun c => decide (c ≠ usc)) →
      alookup (restore_save savesDir saveFile live).1 k = alookup live k) := by
  have hres : restore_save savesDir saveFile live =
      (assocSet live (saveFile.takeWhile (fun c => decide (c ≠ usc)))
        (copytreeMerge snap
          ((alookup live (saveFile.takeWhile (fun c => decide (c ≠ usc)))).getD [])),
       false) := by
    unfold restore_save
    rw [hs]
  refine ⟨hres, ?_, ?_, ?_⟩
  · intro p cv hp
    exact copytreeMerge_mem snap p cv hnd hp _
  · intro p hp
    exact copytreeMerge_not_mem snap p hp _
  · intro k hk
    rw [hres]
    exact alookup_assocSet_ne live (saveFile.takeWhile (fun c => decide (c ≠ usc)))
      k (copytreeMerge snap
        ((alookup live (saveFile.takeWhile (fun c => decide (c ≠ usc)))).getD [])) hk

/-- C5 witness: the spec's own restore scenario — snapshot
slot1_20240101_000000 holding files a (new) and b, live slot1 holding
a (old) and c — instantiating `restore_save_merge`: the restore rewrites the
slot1 entry with the merge of the snapshot over the live slot. -/
theorem restore_save_merge_witness :
    restore_save
        [(("slot1_20240101_000000".data : Chars),
          [(("a".data : Chars), ("new".data : Chars)),
           (("b".data : Chars), ("vb".data : Chars))])]
        ("slot1_20240101_000000".data)
        [(("slot1".data : Chars),
          [(("a".data : Chars), ("old".data : Chars)),
           (("c".data : Chars), ("vc".data : Chars))])] =
      (assocSet
        [(("slot1".data : Chars),
          [(("a".data : Chars), ("old".data : Chars)),
           (("c".data : Chars), ("vc".data : Chars))])]
        ("slot1".data)
        (copytreeMerge
          [(("a".data : Chars), ("new".data : Chars)),
           (("b".data : Chars), ("vb".data : Chars))]
          [(("a".data : Chars), ("old".data : Chars)),
           (("c".data : Chars), ("vc".data : Chars))]),
       false) :=
  (restore_save_merge
    [(("slot1_20240101_000000".data : Chars),
      [(("a".data : Chars), ("new".data : Chars)),
       (("b".data : Chars), ("vb".data : Chars))])]
    ("slot1_20240101_000000".data)
    [(("slot1".data : Chars),
      [(("a".data : Chars), ("old".data : Chars)),
       (("c".data : Chars), ("vc".data : Chars))])]
    [(("a".data : Chars), ("new".data : Chars)),
     (("b".data : Chars), ("vb".data : Chars))]
    rfl (by decide)).1

/-- C5 counterexample: for snapshot name slot_a_20240101_000000 the claim's
original slot name is the portion before the final _timestamp part —
"slot_a" (or longer) under every reading — but the code computes
split('_')[0] = "slot": the restore merges into watchRoot/slot and leaves
watchRoot/slot_a (the slot the snapshot came from) untouched. -/
theorem restore_parse_claim_false :
    (("slot_a_20240101_000000".data : Chars)).takeWhile
        (fun c => decide (c ≠ usc)) = ("slot".data : Chars) ∧
    ("slot".data : Chars) ≠ ("slot_a".data : Chars) ∧
    alookup (restore_save
        [(("slot_a_20240101_000000".data : Chars),
          [(("f".data : Chars), ("new".data : Chars))])]
        ("slot_a_20240101_000000".data)
        [(("slot_a".data : Chars),
          [(("f".data : Chars), ("old".data : Chars))])]).1
      ("slot_a".data) = some [(("f".data : Chars), ("old".data : Chars))] ∧
    alookup (restore_save
        [(("slot_a_20240101_000000".data : Chars),
          [(("f".data : Chars), ("new".data : Chars))])]
        ("slot_a_20240101_000000".data)
        [(("slot_a".data : Chars),
          [(("f".data : Chars), ("old".data : Chars))])]).1
      ("slot".data) = some [(("f".data : Chars), ("new".data : Chars))] := by
  refine ⟨rfl, by decide, rfl, rfl⟩

/-- C7 (amended): every slot-granular snapshot of a sweep at wall time w is
stored as {slotName}_{YYYYMMDD_HHMMSS}: the timestamp
(time.strftime("%Y%m%d_%H%M%S")) is 15 characters with one internal
underscore — not 14 separator-free characters.  The name still parses: the
portion before the first underscore is the slot name (when the slot name has
no underscore), and dropping the name and one underscore recovers the
timestamp. -/
theorem save_now_snapshot_name (wall : Nat → DateTime) (c : Nat) (s : Chars)
    (t : DirTree) (files : List Chars)
    (hs : slotPref.isPrefixOf s = true) (hns : noSlotDirs t = true)
    (hu : usc ∉ s) :
    save_now (fun k => strftimeYmdHMS (wall k)) c
        (.node (.cons s t .nil) files) [] =
      ⟨[(backupName s (strftimeYmdHMS (wall c)), t)], [s], c + 1, none⟩ ∧
    (strftimeYmdHMS (wall c)).length = 15 ∧
    (backupName s (strftimeYmdHMS (wall c))).takeWhile
      (fun ch => decide (ch ≠ usc)) = s ∧
    (backupName s (strftimeYmdHMS (wall c))).drop (s.length + 1) =
      strftimeYmdHMS (wall c) := by
  have hw : walkSlots [] (DirTree.node (.cons s t .nil) files) = [(s, s, t)] := by
    show slotEntriesAt [] (.cons s t .nil) ++ walkInto [] (.cons s t .nil) = _
    rw [show walkInto [] (DirEntries.cons s t .nil) =
        walkSlots (joinRel [] s) t ++ [] from rfl,
      walkSlots_noSlot (joinRel [] s) t hns]
    show ((if slotPref.isPrefixOf s then [(s, joinRel [] s, t)] else []) ++ []) ++
        ([] ++ []) = [(s, s, t)]
    rw [hs]
    simp [joinRel]
  refine ⟨?_, ?_, ?_, ?_⟩
  · show sweepGo (strftimeYmdHMS (wall c))
        (walkSlots [] (DirTree.node (.cons s t .nil) files)) [] [] c = _
    rw [hw]
    rfl
  · simp [strftimeYmdHMS, pad4, pad2]
  · show (s ++ usc :: strftimeYmdHMS (wall c)).takeWhile
        (fun ch => decide (ch ≠ usc)) = s
    exact takeWhile_all_append (strftimeYmdHMS (wall c))
      (fun a ha => by
        simp only [decide_eq_true_eq]
        intro he
        exact hu (he ▸ ha))
      (by simp)
  · show (s ++ usc :: strftimeYmdHMS (wall c)).drop (s.length + 1) = _
    rw [show s ++ usc :: strftimeYmdHMS (wall c) =
        (s ++ [usc]) ++ strftimeYmdHMS (wall c) by simp,
      show s.length + 1 = (s ++ [usc]).length by simp]
    exact List.drop_left _ _

/-- C7 witness: a sweep over slot1 at wall time 2024-01-01 00:00:00,
instantiating `save_now_snapshot_name`. -/
theorem save_now_snapshot_name_witness :
    save_now (fun _ => strftimeYmdHMS ⟨2024, 1, 1, 0, 0, 0⟩) 0
        (.node (.cons slot1name (.node .nil []) .nil) []) [] =
      ⟨[(backupName slot1name (strftimeYmdHMS ⟨2024, 1, 1, 0, 0, 0⟩),
          .node .nil [])], [slot1name], 0 + 1, none⟩ ∧
    (strftimeYmdHMS (⟨2024, 1, 1, 0, 0, 0⟩ : DateTime)).length = 15 ∧
    (backupName slot1name (strftimeYmdHMS ⟨2024, 1, 1, 0, 0, 0⟩)).takeWhile
      (fun ch => decide (ch ≠ usc)) = slot1name ∧
    (backupName slot1name (strftimeYmdHMS ⟨2024, 1, 1, 0, 0, 0⟩)).drop
      (slot1name.length + 1) = strftimeYmdHMS ⟨2024, 1, 1, 0, 0, 0⟩ :=
  save_now_snapshot_name (fun _ => ⟨2024, 1, 1, 0, 0, 0⟩) 0 slot1name
    (.node .nil []) [] (by decide) (by decide) (by decide)

/-- C7 counterexample: at wall time 2024-01-01 00:00:00 the sweep timestamp
is "20240101_000000" — 15 characters including an internal underscore — so
there is no 14-character timestamp ts with snapshot name slot1_ts. -/
theorem snapshot_name_claim_false :
    strftimeYmdHMS ⟨2024, 1, 1, 0, 0, 0⟩ = "20240101_000000".data ∧
    ("20240101_000000".data : Chars).length = 15 ∧
    usc ∈ ("20240101_000000".data : Chars) ∧
    ¬ ∃ ts : Chars,
        backupName slot1name (strftimeYmdHMS ⟨2024, 1, 1, 0, 0, 0⟩) =
          slot1name ++ usc :: ts ∧ ts.length = 14 := by
  refine ⟨rfl, rfl, by decide, ?_⟩
  rintro ⟨ts, hname, h14⟩
  have hlen := congrArg List.length hname
  simp [backupName, strftimeYmdHMS, pad4, pad2, slot1name] at hlen
  omega

/-! Lemmas about the discovery scan. -/

theorem firstDirHit_map_false (l : List Chars) :
    firstDirHit (l.map (fun q => (q, false))) = none := by
  induction l with
  | nil => rfl
  | cons a rest ih => exact ih

/-- C9 (amended): the discovery scan swallows the exception of every failing
drive (the per-drive except clauses catch PermissionError and any other
Exception, merely logging) and keeps scanning the remaining drives; it
returns the FIRST existing candidate found in drive order — a single path or
none — not an ordered list of all candidates. -/
theorem detect_save_path_resilient :
    (∀ (es : List PyErr) (rest : List DriveScan),
        detect_save_path ((es.map (fun e => ⟨[], some e⟩)) ++ rest) =
          detect_save_path rest) ∧
    (∀ (e : PyErr) (misses : List Chars) (p : Chars) (rest : List DriveScan),
        detect_save_path
            ((⟨misses.map (fun q => (q, false)), some e⟩ : DriveScan) ::
              (⟨[(p, true)], none⟩ : DriveScan) :: rest) = some p) := by
  constructor
  · intro es rest
    induction es with
    | nil => rfl
    | cons e es2 ih => exact ih
  · intro e misses p rest
    simp only [detect_save_path, firstDirHit_map_false, firstDirHit]
    rfl

/-- C9 counterexample: with drive 1 raising a permission error and drive 2
holding the two existing candidates D:/a and D:/b, the scan returns only
some D:/a; the candidate D:/b found on the scanned drive does not appear in
the returned result, which is a single optional path, not a list. -/
theorem detect_save_path_claim_false :
    detect_save_path
        [⟨[], some .permissionError⟩,
         ⟨[(("D:/a".data : Chars), true), (("D:/b".data : Chars), true)], none⟩] =
      some ("D:/a".data) ∧
    ¬ specResultContains
        (detect_save_path
          [⟨[], some .permissionError⟩,
           ⟨[(("D:/a".data : Chars), true), (("D:/b".data : Chars), true)], none⟩])
        ("D:/b".data) := by
  constructor
  · rfl
  · intro h
    unfold specResultContains at h
    exact absurd h (by decide)

/-- C10 (amended): `load_settings` fails soft for a missing or unparseable
settings file — both give the defaults, whose save-folder entries are null —
and a well-formed store loads with every truthy path normalized; but an
unreadable file (present, open raises PermissionError) is NOT caught, because
the except tuple only lists JSONDecodeError and FileNotFoundError, so the
error propagates to the caller. -/
theorem load_settings_fail_soft :
    load_settings .missing = .ok default_settings ∧
    (∀ raw, load_settings (.invalidJson raw) = .ok default_settings) ∧
    (∀ m, load_settings (.valid m) =
      .ok (m.map (fun kv => (kv.1, normalizeVal kv.2)))) ∧
    load_settings .unreadable = .error .permissionError ∧
    alookup default_settings subnautica_save_folder_key = some none ∧
    alookup default_settings subnautica_zero_save_folder_key = some none :=
  ⟨rfl, fun _ => rfl, fun _ => rfl, rfl, rfl, rfl⟩

/-- C10 counterexample: the claim says EVERY bad store state — including an
unreadable file — loads as the default configuration; but for the unreadable
state `load_settings` propagates the PermissionError instead of returning
defaults. -/
theorem load_settings_unreadable_claim_false :
    load_settings .unreadable = .error .permissionError ∧
    load_settings .unreadable ≠ .ok default_settings := by
  refine ⟨rfl, fun h => ?_⟩
  rw [show load_settings .unreadable = Except.error .permissionError from rfl] at h
  exact Except.noConfusion h

/-- C8 (code bug): on a directory-created event under an active observer the
handler calls `start_watching_directory`, which evaluates
`observer.schedule._directory`; `schedule` is a bound method with no
`_directory` attribute, so an AttributeError propagates out of the handler
into watchdog's dispatch thread: no watch is ever added for the new
directory, contradicting the claimed invariant (and the handler's own
"New directory created and being watched" log line). -/
theorem on_created_new_directory_raises (o : ObserverS)
    (rest : List (Option ObserverS)) (tf content p : Chars)
    (oracle : Nat → CopyOutcome) :
    on_created (some o :: rest) tf content oracle ⟨true, p⟩ =
      .error .attributeError ∧
    start_watching_directory p (some o :: rest) = .error .attributeError :=
  ⟨rfl, rfl⟩
